import Mathlib

/-!
Verification development for the core of the yamps paste service
(src/main.rs): the in-process content cache, its background eviction
sweeper (`clear_cache`), and the per-client submission rate limiter
inside `submit`. Every definition below is translated from the Rust
source; the two definitions whose names start with `spec` restate the
natural-language specification for comparison with the code.
-/

namespace Yamps

/-- Model of a Rust `String` value: its text together with its heap
allocation capacity in bytes (`String::capacity`). The capacity may
exceed the UTF-8 byte length of the text, for example for strings built
incrementally such as the output of `tera::escape_html`. -/
structure RString where
  str : String
  cap : Nat
deriving DecidableEq

/-- `String::clone` (the code clones keys when pushing them into the
eviction index) allocates exactly the byte length of the text, so a
cloned key has capacity equal to its UTF-8 byte length. -/
def cloneStr (s : String) : RString :=
  ⟨s, s.utf8ByteSize⟩

/-- Lookup by key; models `DashMap::get`. -/
def lookupAL {α : Type} : List (String × α) → String → Option α
  | [], _ => none
  | (k, v) :: rest, key => if k = key then some v else lookupAL rest key

/-- Removal by key; models `DashMap::remove` (a no-op when the key is
absent). -/
def removeAL {α : Type} : List (String × α) → String → List (String × α)
  | [], _ => []
  | (k, v) :: rest, key =>
      if k = key then removeAL rest key else (k, v) :: removeAL rest key

/-- Insert-or-overwrite by key; models `DashMap::insert`. -/
def insertAL {α : Type} (l : List (String × α)) (key : String) (v : α) :
    List (String × α) :=
  (key, v) :: removeAL l key

/-- The shared cache, struct `Cache` in main.rs: `data` models the
`DashMap<String, String>` from key to cached content, and `expiries`
models the `BinaryHeap<(DateTime<Local>, String)>` of priority records
as a multiset of (timestamp, cloned key) pairs. Timestamps are
nanosecond counts. -/
structure Cache where
  data : List (String × RString)
  expiries : List (Nat × RString)
deriving DecidableEq

/-- Byte-wise comparison of two texts, as Rust `Ord` on `String`
compares UTF-8 bytes (codepoint order and byte order agree under
UTF-8). -/
def strLtAux : List Char → List Char → Bool
  | [], [] => false
  | [], _ :: _ => true
  | _ :: _, [] => false
  | a :: as, b :: bs =>
      if a.toNat < b.toNat then true
      else if b.toNat < a.toNat then false
      else strLtAux as bs

def strLt (a b : String) : Bool :=
  strLtAux a.toList b.toList

/-- The `Ord` instance Rust uses inside `BinaryHeap<(DateTime, String)>`:
lexicographic on the timestamp, then the key text. A string's capacity
does not participate in the ordering. -/
def entryLt (a b : Nat × RString) : Bool :=
  if a.1 < b.1 then true
  else if b.1 < a.1 then false
  else strLt a.2.str b.2.str

/-- `BinaryHeap::peek`: Rust's `BinaryHeap` is a max-heap, so `peek`
returns a GREATEST element under `entryLt`. Among fully equal elements
the heap's choice is unspecified; this model deterministically keeps the
first occurrence, a refinement that no theorem below depends on. -/
def heapPeekMax : List (Nat × RString) → Option (Nat × RString)
  | [] => none
  | e :: es => some (es.foldl (fun m x => if entryLt m x then x else m) e)

/-- Remove one occurrence of an entry; together with `heapPeekMax` this
models `BinaryHeap::pop`. -/
def popEntry : List (Nat × RString) → (Nat × RString) → List (Nat × RString)
  | [], _ => []
  | e :: es, t => if e = t then es else e :: popEntry es t

/-- `usize` modulus: the sweeper's running total lives in a 64-bit
`usize`. -/
def USIZE : Nat := 18446744073709551616

/-- Wrapping subtraction on `usize`, the release-mode semantics of the
`size -= item.1.capacity()` statement in `clear_cache` (a debug build
panics when the subtraction underflows). -/
def wrapSub (a b : Nat) : Nat :=
  (a + (USIZE - b % USIZE)) % USIZE

/-- The aggregate size `clear_cache` computes at the top of each cycle:
`for item in cache.data.iter() { size += item.value().capacity(); }`.
Note that it sums the stored strings' CAPACITIES. -/
def computeSize (data : List (String × RString)) : Nat :=
  data.foldl (fun acc kv => acc + kv.2.cap) 0

/-- The size the specification describes (spec 4.1, `Size()`): the sum
of the UTF-8 byte lengths of all stored content values. Stated from the
spec's words, for comparison with `computeSize`. -/
def specContentBytes (data : List (String × RString)) : Nat :=
  (data.map (fun kv => kv.2.str.utf8ByteSize)).sum

/-- State of one execution of the eviction loop inside `clear_cache`:
the local `size` variable plus the shared cache. -/
structure SweepState where
  size : Nat
  cache : Cache
deriving DecidableEq

/-- One execution of the body of `while size > max_size` in
`clear_cache`: peek the heap; if a record exists, subtract the POPPED
KEY's capacity (`item.1.capacity()`) from `size`, remove that key from
the data map, and pop the record. When `peek` returns `None` the body
changes nothing — the source has no `else break`, so the `while` simply
re-tests the unchanged condition. -/
def clearStep (st : SweepState) : SweepState :=
  match heapPeekMax st.cache.expiries with
  | none => st
  | some item =>
      { size := wrapSub st.size item.2.cap,
        cache := { data := removeAL st.cache.data item.2.str,
                   expiries := popEntry st.cache.expiries item } }

/-- The eviction loop `while size > max_size { ... }`, with explicit
fuel since the source loop need not terminate. -/
def sweepLoop (maxSize : Nat) : Nat → SweepState → SweepState
  | 0, st => st
  | fuel + 1, st =>
      if maxSize < st.size then sweepLoop maxSize fuel (clearStep st) else st

/-- The loop terminates exactly when some finite number of body
executions brings `size` at or below the budget (the only way the
`while size > max_size` condition can become false). -/
def sweepTerminates (maxSize : Nat) (st : SweepState) : Prop :=
  ∃ n : Nat, (clearStep^[n] st).size ≤ maxSize

/-- The loop body's subtraction `size -= item.1.capacity()` underflows
at this state: a record is peeked whose key capacity exceeds the running
total. -/
def stepUnderflows (st : SweepState) : Bool :=
  match heapPeekMax st.cache.expiries with
  | none => false
  | some item => decide (st.size < item.2.cap)

/-- The configured budget in bytes: `clear_cache` multiplies the
configured number of MiB by `1_048_576`. -/
def mib (m : Nat) : Nat :=
  m * 1048576

/-- One cycle of `clear_cache` (fuel-bounded): a no-op when no budget is
configured (the `if let Some(max_size) = max` guard means the function
does not even enter its loop), otherwise sum the capacities and run the
eviction loop. -/
def clear_cache (max : Option Nat) (fuel : Nat) (c : Cache) : Cache :=
  match max with
  | none => c
  | some m => (sweepLoop (mib m) fuel ⟨computeSize c.data, c⟩).cache

/-- Nanoseconds per second; `Instant` and `Duration` are modelled as
nanosecond counts. -/
def nanosPerSec : Nat := 1000000000

/-- `Duration::from_secs`. -/
def secsToNanos (w : Nat) : Nat :=
  w * nanosPerSec

/-- `Duration::as_secs`, which truncates toward zero. -/
def nanosToSecs (d : Nat) : Nat :=
  d / nanosPerSec

/-- `Duration::checked_sub`: `some (a - b)` when `b <= a`, otherwise
`none`. -/
def checkedSub (a b : Nat) : Option Nat :=
  if b ≤ a then some (a - b) else none

/-- The rate-limit gate at the top of `submit` (main.rs lines 119-136).
With a configured interval `wait_time` (seconds): if the identity has a
record and `Duration::from_secs(wait_time).checked_sub(elapsed)` is
`Some(rem)`, return `Err(RateLimited(rem.as_secs()))`; otherwise fall
through and insert `now` for the identity. `Instant::elapsed` is the
saturating difference `now - last`, matching truncated `Nat`
subtraction. Returns the updated ratelimits map on admission. -/
def submitRatelimit :
    Option Nat → List (String × Nat) → String → Nat →
      Except Nat (List (String × Nat))
  | none, rls, _, _ => Except.ok rls
  | some wait_time, rls, remote, now =>
      match lookupAL rls remote with
      | some last_paste =>
          match checkedSub (secsToNanos wait_time) (now - last_paste) with
          | some rem => Except.error (nanosToSecs rem)
          | none => Except.ok (insertAL rls remote now)
      | none => Except.ok (insertAL rls remote now)

/-- The remaining-wait hint the specification describes (spec 4.3):
`ceil(minInterval - elapsed)` in seconds, of a remainder given in
nanoseconds. Stated from the spec's words, for comparison with the
`as_secs` truncation the code performs. -/
def specCeilSecs (nanos : Nat) : Nat :=
  (nanos + (nanosPerSec - 1)) / nanosPerSec

/-- The configuration fields that parameterize the core (struct `Config`
in main.rs). `size_limit` is in KiB, `ratelimit` in seconds, `cache` in
MiB; absence disables the corresponding feature. The `db`, `port` and
`dmca_email` fields belong to excluded plumbing. -/
structure Config where
  size_limit : Option Nat
  ratelimit : Option Nat
  cache : Option Nat
deriving DecidableEq

/-- The user-visible failures of `submit` modelled here. The remaining
variants of the source `Error` enum arise only in the excluded
collaborators (multipart parsing, the database, templating). -/
inductive Error where
  | RateLimited (secs : Nat)
  | PasteTooLarge
deriving DecidableEq

/-- The cache write in `submit` (main.rs lines 168-172): when a cache
budget is configured, insert the content into the data map and push a
`(now, key.clone())` priority record; otherwise store nothing. -/
def cachePut : Option Nat → Cache → String → RString → Nat → Cache
  | some _, c, key, contents, now =>
      { data := insertAL c.data key contents,
        expiries := (now, cloneStr key) :: c.expiries }
  | none, c, _, _, _ => c

/-- The cache probe in `getpaste` (main.rs line 193): a hit requires
both a configured cache budget and a data-map entry; with caching
disabled every probe misses. -/
def cacheGet : Option Nat → Cache → String → Option RString
  | some _, c, id => lookupAL c.data id
  | none, _, _ => none

/-- The cache effect of a full `getpaste` (main.rs lines 193-214): the
served content is the cached value on a hit, else the durable row
`dbv`; when a cache budget is configured the served content is
re-inserted and a fresh priority record pushed (read refresh), otherwise
the cache is untouched. -/
def getpasteRefresh : Option Nat → Cache → String → RString → Nat → Cache
  | some _, c, id, dbv, now =>
      (fun contents =>
        { data := insertAL c.data id contents,
          expiries := (now, cloneStr id) :: c.expiries })
      (match lookupAL c.data id with
        | some item => item
        | none => dbv)
  | none, c, _, _, _ => c

/-- A request touching the cache: a paste submission storing `v` under
`k`, or a read of `k` (serving `dbv` from the durable store on a miss),
at time `t`. -/
inductive CacheOp where
  | put (k : String) (v : RString) (t : Nat)
  | get (k : String) (dbv : RString) (t : Nat)
deriving DecidableEq

/-- The key a request touches. -/
def CacheOp.key : CacheOp → String
  | .put k _ _ => k
  | .get k _ _ => k

/-- Apply one request's cache effect. -/
def applyOp (cfg : Option Nat) (c : Cache) : CacheOp → Cache
  | .put k v t => cachePut cfg c k v t
  | .get k dbv t => getpasteRefresh cfg c k dbv t

/-- Apply a sequence of requests' cache effects, oldest first. -/
def applyOps (cfg : Option Nat) : Cache → List CacheOp → Cache
  | c, [] => c
  | c, op :: ops => applyOps cfg (applyOp cfg c op) ops

/-- The `submit` handler (main.rs lines 110-183) restricted to the core:
run the rate-limit gate (which updates the ratelimits map on
admission), then reject bodies larger than `size_limit.unwrap_or(1024) *
1024` bytes, then store the paste (the durable INSERT is the excluded
collaborator and is modelled as succeeding) and mirror it into the
cache. Returns the outcome together with the ratelimits map and cache
as left behind. -/
def submit (cfg : Config) (rls : List (String × Nat)) (c : Cache)
    (remote : String) (now length : Nat) (contents : RString)
    (key : String) :
    Except Error String × List (String × Nat) × Cache :=
  match submitRatelimit cfg.ratelimit rls remote now with
  | Except.error t => (Except.error (Error.RateLimited t), rls, c)
  | Except.ok rls2 =>
      if cfg.size_limit.getD 1024 * 1024 < length then
        (Except.error Error.PasteTooLarge, rls2, c)
      else
        (Except.ok key, rls2, cachePut cfg.cache c key contents now)

/-! ## Helper lemmas -/

theorem lookupAL_insertAL_self {α : Type} (l : List (String × α))
    (k : String) (v : α) : lookupAL (insertAL l k v) k = some v := by
  simp [insertAL, lookupAL]

theorem lookupAL_removeAL_ne {α : Type} (l : List (String × α))
    (k2 k : String) (h : k2 ≠ k) :
    lookupAL (removeAL l k2) k = lookupAL l k := by
  induction l with
  | nil => rfl
  | cons kv rest ih =>
      obtain ⟨k0, v0⟩ := kv
      by_cases hk : k0 = k2
      · subst hk
        simp [removeAL, lookupAL, h, ih]
      · simp only [removeAL, if_neg hk, lookupAL]
        by_cases hk0 : k0 = k
        · simp [hk0]
        · simp [hk0, ih]

theorem lookupAL_insertAL_ne {α : Type} (l : List (String × α))
    (k2 k : String) (v : α) (h : k2 ≠ k) :
    lookupAL (insertAL l k2 v) k = lookupAL l k := by
  simp [insertAL, lookupAL, h, lookupAL_removeAL_ne l k2 k h]

/-- An admitted pass through the rate-limit gate records `now` for the
identity: the only `ok` results are `insertAL rls remote now`. -/
theorem submitRatelimit_ok_lookup {w now : Nat}
    {rls rls2 : List (String × Nat)} {remote : String}
    (hok : submitRatelimit (some w) rls remote now = Except.ok rls2) :
    lookupAL rls2 remote = some now := by
  rcases hlook : lookupAL rls remote with _ | last
  · simp only [submitRatelimit, hlook] at hok
    cases hok
    exact lookupAL_insertAL_self ..
  · simp only [submitRatelimit, hlook] at hok
    rcases hcs : checkedSub (secsToNanos w) (now - last) with _ | rem
    · rw [hcs] at hok
      cases hok
      exact lookupAL_insertAL_self ..
    · rw [hcs] at hok
      cases hok

/-- If an operation sequence never touches key `k`, the data-map entry
for `k` is untouched. -/
theorem lookupAL_applyOps_ne (b : Nat) (k : String) :
    ∀ (ops : List CacheOp) (c : Cache),
      (∀ op ∈ ops, CacheOp.key op ≠ k) →
      lookupAL (applyOps (some b) c ops).data k = lookupAL c.data k := by
  intro ops
  induction ops with
  | nil => intro c _; rfl
  | cons op rest ih =>
      intro c h
      have hop : CacheOp.key op ≠ k := h op (List.mem_cons_self ..)
      have hrest : ∀ o ∈ rest, CacheOp.key o ≠ k :=
        fun o ho => h o (List.mem_cons_of_mem _ ho)
      cases op with
      | put k2 v2 t =>
          simp only [applyOps, applyOp, cachePut]
          rw [ih _ hrest]
          exact lookupAL_insertAL_ne _ _ _ _ hop
      | get k2 dbv t =>
          simp only [applyOps, applyOp, getpasteRefresh]
          rw [ih _ hrest]
          exact lookupAL_insertAL_ne _ _ _ _ hop

/-! ## Concrete states for the sweeper claims -/

/-- Two entries cached at timestamps 1 and 2 with one-MiB contents,
at the top of a sweeper cycle with a 1 MiB budget, so that eviction is
forced. -/
def c1st : SweepState :=
  ⟨2097152,
    ⟨[("AAAAAAAA", ⟨"a", 1048576⟩), ("BBBBBBBB", ⟨"b", 1048576⟩)],
     [(1, ⟨"AAAAAAAA", 8⟩), (2, ⟨"BBBBBBBB", 8⟩)]⟩⟩

/-- A single entry whose content has capacity 100 bytes, at the top of a
sweeper cycle with a zero-MiB budget. -/
def c2st : SweepState :=
  ⟨100, ⟨[("ABCDEFGH", ⟨"v", 100⟩)], [(1, ⟨"ABCDEFGH", 8⟩)]⟩⟩

/-- The state one loop iteration after `c2st`: the entry is gone, both
the data map and the index are empty, but the running total is
100 - 8 = 92 because the loop subtracted the popped key's capacity. -/
def c2stuck : SweepState :=
  ⟨92, ⟨[], []⟩⟩

/-- A single entry whose content is the three-byte text "abc" held in a
ten-byte allocation, about to be evicted. -/
def c5st : SweepState :=
  ⟨10, ⟨[("ABCDEFGH", ⟨"abc", 10⟩)], [(7, ⟨"ABCDEFGH", 8⟩)]⟩⟩

/-- One live entry of capacity 1048592 recorded at time 1, plus two
stale priority records (read-refresh duplicates of since-evicted keys)
at times 5 and 6, at the top of a cycle with a 1 MiB budget. -/
def c6st : SweepState :=
  ⟨1048592,
    ⟨[("AAAAAAAA", ⟨"v", 1048592⟩)],
     [(1, ⟨"AAAAAAAA", 8⟩), (5, ⟨"JJJJJJJJ", 8⟩), (6, ⟨"KKKKKKKK", 8⟩)]⟩⟩

/-- A single cached paste with the three-byte content "abc" (capacity 3)
under an eight-byte key, at the top of a cycle with a zero-MiB budget. -/
def c8st : SweepState :=
  ⟨3, ⟨[("ABCDEFGH", ⟨"abc", 3⟩)], [(7, ⟨"ABCDEFGH", 8⟩)]⟩⟩

/-! ## Claim theorems -/

/-- Claim C1. The claim states that each peek-and-evict step removes the
entry whose priority record has the smallest `recordedAt`. The code
violates it: `BinaryHeap` is a max-heap, so at `c1st` (entries recorded
at timestamps 1 and 2, eviction forced) `peek` returns the NEWEST record
`(2, "BBBBBBBB")` and the step removes `"BBBBBBBB"` while the oldest
entry `"AAAAAAAA"` stays cached. -/
theorem clearStep_evicts_newest_first :
    heapPeekMax c1st.cache.expiries = some (2, ⟨"BBBBBBBB", 8⟩) ∧
    lookupAL (clearStep c1st).cache.data "BBBBBBBB" = none ∧
    lookupAL (clearStep c1st).cache.data "AAAAAAAA" =
      some ⟨"a", 1048576⟩ := by
  refine ⟨rfl, rfl, rfl⟩

/-- Claim C2. The claim states that the eviction loop stops when the
index has no priority record. The code violates it: the `if let
Some(item) = heap.peek()` has no `else break`, so from `c2st` (budget
0 MiB) one iteration evicts the only entry yet leaves the running total
at 92 (it subtracted the 8-byte key capacity, not the 100-byte content
capacity); the index is then empty, the condition `size > max_size`
stays true, and no number of further iterations can terminate the
loop. -/
theorem sweepLoop_spins_on_exhausted_index :
    (clearStep c2st).cache.expiries = [] ∧
    mib 0 < (clearStep c2st).size ∧
    ¬ sweepTerminates (mib 0) c2st := by
  refine ⟨rfl, by decide, ?_⟩
  rintro ⟨n, hn⟩
  have hstep : clearStep c2st = c2stuck := by decide
  have hfix : clearStep c2stuck = c2stuck := by decide
  cases n with
  | zero =>
      rw [Function.iterate_zero_apply] at hn
      exact absurd hn (by decide)
  | succ m =>
      rw [Function.iterate_succ_apply, hstep,
        Function.iterate_fixed hfix] at hn
      exact absurd hn (by decide)

/-- Claim C3 counterexample. The claim states that an `Admit` arriving
exactly `minInterval` after the last admission succeeds. The code
rejects it: with `minInterval = 10` seconds and a record at time 0, a
request at exactly t = 10 s hits `checked_sub` returning
`Some(Duration::ZERO)` and is rejected with `remainingSeconds = 0`. -/
theorem ratelimit_boundary_rejected :
    submitRatelimit (some 10) [("A", 0)] "A" 10000000000 =
      Except.error 0 := rfl

/-- Claim C3 as amended: with rate limiting enabled and a prior record,
`Admit` succeeds and records `lastAcceptedAt = now` exactly when
`elapsed` is STRICTLY greater than `minInterval`; when
`elapsed <= minInterval` it is rejected with the truncated remaining
seconds (so `0` at the exact boundary); an identity with no prior record
is always admitted. -/
theorem submitRatelimit_strict_threshold (w now last : Nat)
    (rls : List (String × Nat)) (remote : String)
    (hrec : lookupAL rls remote = some last) :
    (secsToNanos w < now - last →
      submitRatelimit (some w) rls remote now =
        Except.ok (insertAL rls remote now) ∧
      lookupAL (insertAL rls remote now) remote = some now) ∧
    (now - last ≤ secsToNanos w →
      submitRatelimit (some w) rls remote now =
        Except.error (nanosToSecs (secsToNanos w - (now - last)))) ∧
    (∀ (rls2 : List (String × Nat)) (remote2 : String),
      lookupAL rls2 remote2 = none →
      submitRatelimit (some w) rls2 remote2 now =
        Except.ok (insertAL rls2 remote2 now)) := by
  refine ⟨?_, ?_, ?_⟩
  · intro hlt
    refine ⟨?_, lookupAL_insertAL_self ..⟩
    simp [submitRatelimit, hrec, checkedSub, Nat.not_le.mpr hlt]
  · intro hle
    simp [submitRatelimit, hrec, checkedSub, hle]
  · intro rls2 remote2 hnone
    simp [submitRatelimit, hnone]

/-- Witness for the amended claim C3: with `minInterval = 10` s and a
record at time 0, a request at t = 15 s is admitted and re-stamped, and
a fresh identity is admitted. -/
theorem submitRatelimit_strict_threshold_witness :
    submitRatelimit (some 10) [("A", 0)] "A" 15000000000 =
      Except.ok [("A", 15000000000)] ∧
    submitRatelimit (some 10) [] "B" 15000000000 =
      Except.ok [("B", 15000000000)] := by
  constructor
  · exact ((submitRatelimit_strict_threshold 10 15000000000 0 [("A", 0)]
      "A" rfl).1 (by decide)).1
  · exact (submitRatelimit_strict_threshold 10 15000000000 0 [("A", 0)]
      "A" rfl).2.2 [] "B" rfl

/-- Claim C4 counterexample. The claim states the wait hint is
`ceil(minInterval - elapsed)`. The code truncates instead: with
`minInterval = 10` s, a record at time 0 and a request at t = 4.5 s, the
remaining interval is 5.5 s; the code reports `5` (via
`Duration::as_secs`), while the spec's ceiling is `6`. -/
theorem ratelimit_hint_not_ceil :
    submitRatelimit (some 10) [("A", 0)] "A" 4500000000 =
      Except.error 5 ∧
    specCeilSecs (secsToNanos 10 - 4500000000) = 6 := by
  refine ⟨rfl, rfl⟩

/-- Claim C4 as amended: for every rejected `Admit` with
`elapsed < minInterval`, the reported hint is the remaining interval
truncated to whole seconds, `floor(minInterval - elapsed)`, not the
ceiling. -/
theorem submitRatelimit_floor_hint (w now last : Nat)
    (rls : List (String × Nat)) (remote : String)
    (hrec : lookupAL rls remote = some last)
    (hlt : now - last < secsToNanos w) :
    submitRatelimit (some w) rls remote now =
      Except.error ((secsToNanos w - (now - last)) / nanosPerSec) := by
  simp [submitRatelimit, hrec, checkedSub, Nat.le_of_lt hlt, nanosToSecs]

/-- Witness for the amended claim C4: the concrete rejection at
t = 4.5 s with a 10 s interval reports 5 seconds. -/
theorem submitRatelimit_floor_hint_witness :
    submitRatelimit (some 10) [("A", 0)] "A" 4500000000 =
      Except.error ((secsToNanos 10 - (4500000000 - 0)) / nanosPerSec) :=
  submitRatelimit_floor_hint 10 4500000000 0 [("A", 0)] "A" rfl (by decide)

/-- Claim C5. The claim states the sweeper's aggregate equals the sum of
the byte lengths of the stored contents and that each eviction subtracts
the evicted content's byte size. The code violates both at `c5st`: the
stored content is the 3-byte text "abc" in a 10-byte allocation, so the
computed aggregate is 10 (capacities), not 3 (byte lengths); and the
eviction step leaves the total at 10 - 8 = 2 because it subtracts the
popped KEY's capacity (`item.1.capacity()`), not the content's size. -/
theorem clearStep_subtracts_key_capacity :
    computeSize c5st.cache.data = 10 ∧
    specContentBytes c5st.cache.data = 3 ∧
    (clearStep c5st).size = 2 ∧
    (clearStep c5st).cache.data = [] := by
  refine ⟨rfl, by decide, rfl, rfl⟩

/-- Claim C6. The claim states that after a sweeper cycle runs to
quiescence the aggregate content size is at most the budget when enough
evictable keys exist. The code violates it at `c6st`: with a 1 MiB
budget, the loop pops the two newest (stale) records, subtracting 8
bytes of key capacity for each, reaches an internal total of exactly
1048576 and exits — leaving a live 1048592-byte entry cached (above
budget) even though its priority record `(1, "AAAAAAAA")` was still
available for eviction. -/
theorem sweepLoop_exits_above_budget :
    (sweepLoop (mib 1) 5 c6st).size ≤ mib 1 ∧
    sweepLoop (mib 1) 5 c6st = sweepLoop (mib 1) 6 c6st ∧
    mib 1 < computeSize (sweepLoop (mib 1) 5 c6st).cache.data ∧
    (sweepLoop (mib 1) 5 c6st).cache.expiries =
      [(1, ⟨"AAAAAAAA", 8⟩)] := by
  refine ⟨by decide, by decide, by decide, by decide⟩

/-- Claim C7. With caching enabled, a `Put(k, v)` followed by a `Get(k)`
— with any intervening requests that do not touch `k` and no eviction —
returns the cached `v` (a hit). -/
theorem put_then_get_roundtrip (b : Nat) (c : Cache) (k : String)
    (v : RString) (now : Nat) (ops : List CacheOp)
    (hops : ∀ op ∈ ops, CacheOp.key op ≠ k) :
    cacheGet (some b) (applyOps (some b) (cachePut (some b) c k v now) ops)
      k = some v := by
  show lookupAL (applyOps (some b) (cachePut (some b) c k v now) ops).data k
    = some v
  rw [lookupAL_applyOps_ne b k ops _ hops]
  exact lookupAL_insertAL_self ..

/-- Witness for claim C7: put "hello" under "abc12345", then put
another key, then read "abc12345": the cached value is served. -/
theorem put_then_get_roundtrip_witness :
    cacheGet (some 1)
      (applyOps (some 1) (cachePut (some 1) ⟨[], []⟩ "abc12345" ⟨"hello", 5⟩ 1)
        [CacheOp.put "k2zzzzzz" ⟨"x", 1⟩ 2])
      "abc12345" = some ⟨"hello", 5⟩ :=
  put_then_get_roundtrip 1 ⟨[], []⟩ "abc12345" ⟨"hello", 5⟩ 1
    [CacheOp.put "k2zzzzzz" ⟨"x", 1⟩ 2] (by decide)

/-- Claim C8. The claim states the sweeper never hits a fatal condition
and in particular the running-total subtraction never underflows. The
code violates it at `c8st` (budget 0 MiB, one cached paste of content
capacity 3 under an 8-byte key): the loop runs since 3 > 0, peeks the
record, and computes `3 - item.1.capacity() = 3 - 8` on `usize` — an
underflow, which panics in a debug build and wraps to 2^64 - 5 in
release. -/
theorem clearStep_size_underflows :
    c8st.size = computeSize c8st.cache.data ∧
    mib 0 < c8st.size ∧
    stepUnderflows c8st = true ∧
    (clearStep c8st).size = 18446744073709551611 := by
  refine ⟨rfl, by decide, rfl, rfl⟩

/-- Claim C9. With no cache budget configured, every request sequence
leaves the cache exactly as it was (a `Put` stores nothing and a read
refreshes nothing), every `Get` probe misses, and the `clear_cache`
sweeper returns without entering its loop. -/
theorem disabled_cache_noop (c : Cache) (ops : List CacheOp) (k : String)
    (fuel : Nat) :
    applyOps none c ops = c ∧
    cacheGet none c k = none ∧
    clear_cache none fuel c = c := by
  refine ⟨?_, rfl, rfl⟩
  induction ops generalizing c with
  | nil => rfl
  | cons op rest ih =>
      cases op with
      | put k2 v2 t => exact ih (cachePut none c k2 v2 t)
      | get k2 dbv t => exact ih (getpasteRefresh none c k2 dbv t)

/-- Claim C10. With rate limiting enabled, the gate inserts the
identity's new `lastAcceptedAt` BEFORE the size check runs, so a
submission that is admitted by the limiter and then rejected as too
large still leaves `lastAcceptedAt = now` recorded: the failed
submission consumed the client's rate-limit slot. -/
theorem ratelimit_recorded_before_size_check (cfg : Config) (w : Nat)
    (rls rls2 : List (String × Nat)) (c : Cache) (remote key : String)
    (now length : Nat) (contents : RString)
    (hw : cfg.ratelimit = some w)
    (hok : submitRatelimit cfg.ratelimit rls remote now = Except.ok rls2)
    (hbig : cfg.size_limit.getD 1024 * 1024 < length) :
    submit cfg rls c remote now length contents key =
      (Except.error Error.PasteTooLarge, rls2, c) ∧
    lookupAL rls2 remote = some now := by
  constructor
  · simp [submit, hok, hbig]
  · rw [hw] at hok
    exact submitRatelimit_ok_lookup hok

/-- Witness for claim C10: a fresh client admitted at t = 5 whose body
of 2000 bytes exceeds the 1 KiB limit is rejected as too large, yet the
ratelimits map has recorded time 5 for it. -/
theorem ratelimit_recorded_before_size_check_witness :
    submit ⟨some 1, some 10, none⟩ [] ⟨[], []⟩ "A" 5 2000 ⟨"x", 1⟩
        "abc12345" =
      (Except.error Error.PasteTooLarge, [("A", 5)], (⟨[], []⟩ : Cache)) ∧
    lookupAL [("A", 5)] "A" = some 5 :=
  ratelimit_recorded_before_size_check ⟨some 1, some 10, none⟩ 10 []
    [("A", 5)] ⟨[], []⟩ "A" "abc12345" 5 2000 ⟨"x", 1⟩ rfl rfl (by decide)

end Yamps
